import Mathlib

/-!
# Verification of the `static_str_ops` string-interning crate

A shallow embedding of `src/lib.rs`.  The crate keeps a global
`STATIC_STRINGS : Mutex<HashSet<...>>` of static str references; `staticize` looks the
content up and either returns the stored reference or leaks a fresh
allocation and inserts it; `is_staticized` queries membership;
`destaticize` removes the tracking entry.  The macros `static_concat!`,
`static_format!` and `staticize_once!` are layered on top of `staticize`.

We model a static str reference handed out by the pool as an `Entry`
carrying the address of its allocation (`id`, drawn from a monotone
counter, since `Box::leak` never reuses a live allocation) together with
its `content`.  The pool state is the list of currently tracked entries
plus the fresh-allocation counter.  All operations are sequential: the
Rust code serialises every pool operation behind the single mutex, so the
lock-free interleavings are not observable and the sequential semantics
is the linearised one.
-/

/-- A static str reference handed out by the pool: `id` models the address of
the leaked allocation, `content` the string contents.  Two references are
observably identical exactly when they agree on both fields. -/
structure Entry where
  id : Nat
  content : String
deriving DecidableEq

/-- The global pool `STATIC_STRINGS`: the set of tracked interned strings
(as a list of entries; uniqueness per content is proved as an invariant,
mirroring `HashSet` semantics where `&str` equality is content equality),
plus the counter supplying fresh allocation addresses. -/
structure Pool where
  entries : List Entry
  nextId : Nat
deriving DecidableEq

/-- The initial pool state: `HashSet::new()`, no string ever leaked. -/
def Pool.empty : Pool := ⟨[], 0⟩

/-- Embedding of `pub fn staticize` (src/lib.rs:107-118): under the lock, `strings.get(s.as_str())` looks the
content up; if present the stored reference is returned and the pool is
untouched, otherwise the string is leaked (`Box::leak`, modelled by
consuming a fresh `nextId`) and inserted. -/
def staticize (s : String) (p : Pool) : Entry × Pool :=
  match p.entries.find? (fun e => decide (e.content = s)) with
  | some e => (e, p)
  | none => (⟨p.nextId, s⟩, ⟨⟨p.nextId, s⟩ :: p.entries, p.nextId + 1⟩)

/-- Embedding of `pub fn is_staticized` (src/lib.rs:129-131):
`STATIC_STRINGS.lock().unwrap().contains(s)`.  The Rust body only reads
the set, which the embedding reflects by returning a `Bool` and no pool:
the operation has no effect on the state. -/
def is_staticized (s : String) (p : Pool) : Bool :=
  p.entries.any (fun e => decide (e.content = s))

/-- Embedding of `pub fn destaticize` (src/lib.rs:143-145):
`STATIC_STRINGS.lock().unwrap().remove(s)` removes the entry whose
content equals `s` (a `HashSet` holds at most one) and reports whether it
was present.  The leaked allocation itself is not freed, which the model
reflects by leaving `nextId` untouched: evicted addresses are never
reused. -/
def destaticize (s : String) (p : Pool) : Bool × Pool :=
  (p.entries.any (fun e => decide (e.content = s)),
   ⟨p.entries.filter (fun e => decide (e.content ≠ s)), p.nextId⟩)

/-- Embedding of `static_concat!` (src/lib.rs:162-167): with no arguments the macro
expands to the literal `""` and the pool is never touched; otherwise it
expands to `staticize(concat!(args...))`, where `concat!` (Rust std, an
external collaborator here) joins the literal fragments at build time.
The returned static str reference is modelled by its content. -/
def static_concat (args : List String) (p : Pool) : String × Pool :=
  match args with
  | [] => ("", p)
  | _ =>
    let ep := staticize (String.join args) p
    (ep.1.content, ep.2)

/-- Modelled from the spec: the Rust `format!` macro (std, outside this
repository) applied to a template whose placeholders are all plain `{}`
and to string arguments — "accepts a template and arguments per standard
format-substitution rules, produces an owned string".  Each `{}` is
replaced, left to right, by the characters of the next argument. -/
def formatChars : List Char → List String → List Char
  | [], _ => []
  | '{' :: '}' :: rest, a :: args => a.data ++ formatChars rest args
  | '{' :: '}' :: rest, [] => formatChars rest []
  | c :: rest, args => c :: formatChars rest args

/-- Modelled from the spec: `format!(template, args...)` for plain `{}`
placeholders and string arguments, as a `String`. -/
def format_spec (template : String) (args : List String) : String :=
  ⟨formatChars template.data args⟩

/-- Embedding of `static_format!` (src/lib.rs:186-191): with no arguments the macro
expands to the literal `""` and the pool is never touched; otherwise the
first argument is the template, and the macro expands to
`staticize(format!(args...))`. -/
def static_format (args : List String) (p : Pool) : String × Pool :=
  match args with
  | [] => ("", p)
  | t :: rest =>
    let ep := staticize (format_spec t rest) p
    (ep.1.content, ep.2)

/-- One invocation of the `_staticize_once!` expansion at a call site
(src/lib.rs:196-207).  The per-call-site state — the `static mut $gensym`
cell together with the `static INIT : Once` barrier — is modelled by an
`Option Entry`: `none` is the initial barrier state (the cell still holds
the placeholder `""`), and `some e` means `INIT` has completed and the
cell holds the reference `e` produced by `staticize`; the `Once` barrier
transitions monotonically and, once complete, every later call skips the
closure and returns the cell.  The wrapped expression is an arbitrary computation
`expr` with a side effect on some caller-visible state `α` (e.g. an
increment counter) producing the `String` to intern.  If `INIT` already
ran, the cached reference is returned and neither `expr` nor the pool is
touched; otherwise `INIT.call_once` evaluates `expr`, hands the result to
`staticize`, stores the returned reference and marks the barrier
complete. -/
def _staticize_once {α : Type} (expr : α → α × String)
    (cell : Option Entry) (u : α) (p : Pool) :
    Entry × Option Entry × α × Pool :=
  match cell with
  | some e => (e, some e, u, p)
  | none =>
    let us := expr u
    let ep := staticize us.2 p
    (ep.1, some ep.1, us.1, ep.2)

/-- Runs `n` successive invocations of `staticize_once!` at one call site
(src/lib.rs:236-240: the macro mints a fresh `$gensym` per syntactic
occurrence, so one call site is one cell threaded through all its
invocations).  Returns the list of references handed back, the final cell
state, the final caller state and the final pool. -/
def runOnceN {α : Type} (expr : α → α × String) :
    Nat → Option Entry → α → Pool → List Entry × Option Entry × α × Pool
  | 0, cell, u, p => ([], cell, u, p)
  | n + 1, cell, u, p =>
    let step := _staticize_once expr cell u p
    let rest := runOnceN expr n step.2.1 step.2.2.1 step.2.2.2
    (step.1 :: rest.1, rest.2)

/-- The pool-uniqueness invariant: at most one tracked entry per distinct
content value (the `HashSet` compares static str references by content, so it can
never hold two entries with equal content). -/
def UniqueContent (p : Pool) : Prop :=
  (p.entries.map Entry.content).Nodup

/-- Pool states reachable from process start through the public
operations.  `is_staticized` takes `&self` reads only and returns no
pool, so it contributes no transition; `static_concat!`,
`static_format!` and `staticize_once!` mutate the pool only through
`staticize`, so closure under `staticize` and `destaticize` covers every
public operation. -/
inductive Reachable : Pool → Prop
  | empty : Reachable Pool.empty
  | intern (s : String) (p : Pool) : Reachable p → Reachable (staticize s p).2
  | evict (s : String) (p : Pool) : Reachable p → Reachable (destaticize s p).2

/-! ## Basic lemmas about the pool operations -/

/-- The reference returned by `staticize s` always has content `s`. -/
theorem staticize_content (s : String) (p : Pool) :
    (staticize s p).1.content = s := by
  unfold staticize
  cases h : p.entries.find? (fun e => decide (e.content = s)) with
  | none => simp
  | some e =>
    have := List.find?_some h
    simpa using this

/-- The reference returned by `staticize s` is tracked in the resulting
pool. -/
theorem staticize_mem (s : String) (p : Pool) :
    (staticize s p).1 ∈ (staticize s p).2.entries := by
  unfold staticize
  cases h : p.entries.find? (fun e => decide (e.content = s)) with
  | none => simp
  | some e =>
    simpa using List.mem_of_find?_eq_some h

/-- After `staticize s`, looking the content up again finds exactly the
entry that was returned. -/
theorem staticize_find (s : String) (p : Pool) :
    (staticize s p).2.entries.find? (fun e => decide (e.content = s)) =
      some (staticize s p).1 := by
  unfold staticize
  cases h : p.entries.find? (fun e => decide (e.content = s)) with
  | none => simp
  | some e => simpa using h

/-- Query `is_staticized` holds exactly when some tracked entry has the given
content. -/
theorem is_staticized_iff (s : String) (p : Pool) :
    is_staticized s p = true ↔ ∃ e ∈ p.entries, e.content = s := by
  simp [is_staticized]

/-- If the content is tracked, `find?` succeeds. -/
theorem find_isSome_of_is_staticized (s : String) (p : Pool)
    (h : is_staticized s p = true) :
    ∃ e, p.entries.find? (fun e => decide (e.content = s)) = some e := by
  cases hf : p.entries.find? (fun e => decide (e.content = s)) with
  | some e => exact ⟨e, rfl⟩
  | none =>
    rw [is_staticized_iff] at h
    obtain ⟨e, he, hc⟩ := h
    have hne := List.find?_eq_none.mp hf e he
    simp only [decide_eq_true_eq] at hne
    exact absurd hc hne

/-- Content is tracked right after `staticize`. -/
theorem is_staticized_staticize (s : String) (p : Pool) :
    is_staticized s (staticize s p).2 = true := by
  rw [is_staticized_iff]
  exact ⟨(staticize s p).1, staticize_mem s p, staticize_content s p⟩

/-- Content is not tracked right after `destaticize`. -/
theorem is_staticized_destaticize (s : String) (p : Pool) :
    is_staticized s (destaticize s p).2 = false := by
  rw [Bool.eq_false_iff]
  intro h
  rw [is_staticized_iff] at h
  obtain ⟨e, he, hc⟩ := h
  rw [destaticize] at he
  simp only [List.mem_filter, decide_eq_true_eq] at he
  exact he.2 hc

/-- Operation `staticize` preserves content uniqueness: a redundant insert leaves
the pool untouched, and a fresh insert adds content that `find?` just
certified absent. -/
theorem uniqueContent_staticize (s : String) (p : Pool)
    (h : UniqueContent p) : UniqueContent (staticize s p).2 := by
  unfold staticize
  cases hf : p.entries.find? (fun e => decide (e.content = s)) with
  | some e => simpa using h
  | none =>
    simp only [UniqueContent, List.map_cons, List.nodup_cons]
    refine ⟨?_, h⟩
    intro hmem
    obtain ⟨e, he, hc⟩ := List.mem_map.mp hmem
    have hne := List.find?_eq_none.mp hf e he
    simp only [decide_eq_true_eq] at hne
    exact hne hc

/-- Operation `destaticize` preserves content uniqueness: it only filters the entry
list. -/
theorem uniqueContent_destaticize (s : String) (p : Pool)
    (h : UniqueContent p) : UniqueContent (destaticize s p).2 := by
  exact h.sublist ((List.filter_sublist _).map Entry.content)

/-- Every reachable pool state has at most one entry per content. -/
theorem uniqueContent_of_reachable (p : Pool) (h : Reachable p) :
    UniqueContent p := by
  induction h with
  | empty => exact List.nodup_nil
  | intern s p _ ih => exact uniqueContent_staticize s p ih
  | evict s p _ ih => exact uniqueContent_destaticize s p ih

/-- Once the barrier is complete, every further invocation returns the
cached reference and changes nothing. -/
theorem runOnceN_cached {α : Type} (expr : α → α × String) (n : Nat)
    (e : Entry) (u : α) (p : Pool) :
    runOnceN expr n (some e) u p = (List.replicate n e, some e, u, p) := by
  induction n generalizing u p with
  | zero => rfl
  | succ n ih => simp [runOnceN, _staticize_once, ih, List.replicate_succ]

/-- A fresh call site invoked `n + 1` times: the first call evaluates the
expression once, interns the result, and every call returns that same
reference. -/
theorem runOnceN_fresh {α : Type} (expr : α → α × String) (n : Nat)
    (u : α) (p : Pool) :
    runOnceN expr (n + 1) none u p =
      (List.replicate (n + 1) (staticize (expr u).2 p).1,
       some (staticize (expr u).2 p).1, (expr u).1,
       (staticize (expr u).2 p).2) := by
  simp [runOnceN, _staticize_once, runOnceN_cached, List.replicate_succ]

/-- When the lookup succeeds, `staticize` returns the found entry and the
unchanged pool. -/
theorem staticize_of_find_some (s : String) (p : Pool) (e : Entry)
    (hf : p.entries.find? (fun e => decide (e.content = s)) = some e) :
    staticize s p = (e, p) := by
  unfold staticize
  rw [hf]

/-- When the lookup fails, `staticize` leaks a fresh allocation and
inserts it. -/
theorem staticize_of_find_none (s : String) (p : Pool)
    (hf : p.entries.find? (fun e => decide (e.content = s)) = none) :
    staticize s p = (⟨p.nextId, s⟩, ⟨⟨p.nextId, s⟩ :: p.entries, p.nextId + 1⟩) := by
  unfold staticize
  rw [hf]

/-- After a `destaticize s`, no tracked entry has content `s`, so the
lookup fails. -/
theorem find_destaticize_none (s : String) (p : Pool) :
    (destaticize s p).2.entries.find? (fun e => decide (e.content = s)) = none := by
  rw [List.find?_eq_none]
  intro e he
  simp only [destaticize, List.mem_filter, decide_eq_true_eq] at he
  simpa using he.2

/-- A second `staticize` with the same content returns the very same
reference and leaves the pool as the first call left it. -/
theorem staticize_staticize (s : String) (p : Pool) :
    staticize s (staticize s p).2 = ((staticize s p).1, (staticize s p).2) :=
  staticize_of_find_some s (staticize s p).2 (staticize s p).1 (staticize_find s p)

/-- Unfolding equation for `static_concat` on a non-empty argument
list. -/
theorem static_concat_cons (a : String) (args : List String) (p : Pool) :
    static_concat (a :: args) p =
      ((staticize (String.join (a :: args)) p).1.content,
       (staticize (String.join (a :: args)) p).2) := rfl

/-- Unfolding equation for `static_format` on a non-empty argument
list. -/
theorem static_format_cons (t : String) (args : List String) (p : Pool) :
    static_format (t :: args) p =
      ((staticize (format_spec t args) p).1.content,
       (staticize (format_spec t args) p).2) := rfl

/-! ## The claims -/

/-- Claim C1: interning is idempotent.  For every string `s`, if the
content of `s` is already tracked in the pool, `staticize s` is a no-op
that returns the reference of the existing entry (a tracked entry with
content `s`), and calling `staticize` again with the same content returns
a reference observably identical (the same stored entry) to the one
returned by the first call, again without changing the pool. -/
theorem staticize_idempotent (s : String) (p : Pool)
    (h : is_staticized s p = true) :
    (staticize s p).2 = p ∧ (staticize s p).1 ∈ p.entries ∧
    (staticize s p).1.content = s ∧
    (staticize s (staticize s p).2).1 = (staticize s p).1 ∧
    (staticize s (staticize s p).2).2 = (staticize s p).2 := by
  obtain ⟨e, hf⟩ := find_isSome_of_is_staticized s p h
  have h1 := staticize_of_find_some s p e hf
  refine ⟨by rw [h1], ?_, staticize_content s p, ?_, ?_⟩
  · rw [h1]
    exact List.mem_of_find?_eq_some hf
  · rw [staticize_staticize]
  · rw [staticize_staticize]

/-- Witness for C1 at `s := "a"` and the pool obtained by interning
`"a"` into the empty pool. -/
theorem staticize_idempotent_witness :
    (staticize "a" (staticize "a" Pool.empty).2).2 = (staticize "a" Pool.empty).2 ∧
    (staticize "a" (staticize "a" Pool.empty).2).1 ∈ (staticize "a" Pool.empty).2.entries ∧
    (staticize "a" (staticize "a" Pool.empty).2).1.content = "a" ∧
    (staticize "a" (staticize "a" (staticize "a" Pool.empty).2).2).1 =
      (staticize "a" (staticize "a" Pool.empty).2).1 ∧
    (staticize "a" (staticize "a" (staticize "a" Pool.empty).2).2).2 =
      (staticize "a" (staticize "a" Pool.empty).2).2 :=
  staticize_idempotent "a" (staticize "a" Pool.empty).2 (by decide)

/-- Claim C3: membership tracks intern and evict exactly.  For every
string `s`, `is_staticized s` is false in the initial pool (before any
intern of `s`), true immediately after `staticize s`, and false again
immediately after a `destaticize s` with no intervening intern. -/
theorem is_staticized_tracks (s : String) (p : Pool) :
    is_staticized s Pool.empty = false ∧
    is_staticized s (staticize s p).2 = true ∧
    is_staticized s (destaticize s p).2 = false :=
  ⟨rfl, is_staticized_staticize s p, is_staticized_destaticize s p⟩

/-- Claim C4: pool uniqueness invariant.  Every reachable pool state has
at most one tracked entry per distinct content value, and each public
mutating operation (`staticize`, `destaticize`) preserves this invariant
(`is_staticized` returns only a `Bool` and leaves no pool to check). -/
theorem pool_unique_invariant (s : String) (p : Pool) (h : Reachable p) :
    UniqueContent p ∧ UniqueContent (staticize s p).2 ∧
    UniqueContent (destaticize s p).2 :=
  ⟨uniqueContent_of_reachable p h,
   uniqueContent_staticize s p (uniqueContent_of_reachable p h),
   uniqueContent_destaticize s p (uniqueContent_of_reachable p h)⟩

/-- Witness for C4 at `s := "b"` and the reachable pool obtained by
interning `"a"` into the empty pool. -/
theorem pool_unique_invariant_witness :
    UniqueContent (staticize "a" Pool.empty).2 ∧
    UniqueContent (staticize "b" (staticize "a" Pool.empty).2).2 ∧
    UniqueContent (destaticize "b" (staticize "a" Pool.empty).2).2 :=
  pool_unique_invariant "b" (staticize "a" Pool.empty).2
    (Reachable.intern "a" Pool.empty Reachable.empty)

/-- Claim C5: evict reports prior presence as a boolean, never as an
error.  For every string `s`, `destaticize s` returns `true` exactly when
the content of `s` was tracked at the time of the call, and a repeated
`destaticize s` with nothing re-inserted returns `false`; the operation
is total, so absence is a `false` result, not a failure. -/
theorem destaticize_reports_presence (s : String) (p : Pool) :
    ((destaticize s p).1 = true ↔ ∃ e ∈ p.entries, e.content = s) ∧
    (destaticize s (destaticize s p).2).1 = false :=
  ⟨is_staticized_iff s p, is_staticized_destaticize s p⟩

/-- Claim C6: re-interning after eviction.  For every string `s`, after
`destaticize s`, a subsequent `staticize s` succeeds: it returns a
reference whose content equals `s`, the content is tracked afterwards,
and the reference is a fresh allocation (the next leak address), so no
residual state of the evicted entry is used. -/
theorem reintern_after_evict (s : String) (p : Pool) :
    (staticize s (destaticize s p).2).1.content = s ∧
    is_staticized s (staticize s (destaticize s p).2).2 = true ∧
    (staticize s (destaticize s p).2).1 = ⟨p.nextId, s⟩ := by
  refine ⟨staticize_content s (destaticize s p).2,
    is_staticized_staticize s (destaticize s p).2, ?_⟩
  rw [staticize_of_find_none s (destaticize s p).2 (find_destaticize_none s p)]
  rfl

/-- Claim C7: query and redundant insert leave the pool unchanged.
`is_staticized` performs no mutation (its embedding returns only a
`Bool`, as the Rust body only calls `contains` on the locked set), and
`staticize` of content already present returns an existing tracked entry
without mutating the pool. -/
theorem query_and_redundant_insert_frame (s : String) (p : Pool)
    (h : is_staticized s p = true) :
    (staticize s p).2 = p ∧ (staticize s p).1 ∈ p.entries := by
  obtain ⟨e, hf⟩ := find_isSome_of_is_staticized s p h
  rw [staticize_of_find_some s p e hf]
  exact ⟨rfl, List.mem_of_find?_eq_some hf⟩

/-- Witness for C7 at `s := "c"` and the pool obtained by interning
`"c"` into the empty pool. -/
theorem query_and_redundant_insert_frame_witness :
    (staticize "c" (staticize "c" Pool.empty).2).2 = (staticize "c" Pool.empty).2 ∧
    (staticize "c" (staticize "c" Pool.empty).2).1 ∈ (staticize "c" Pool.empty).2.entries :=
  query_and_redundant_insert_frame "c" (staticize "c" Pool.empty).2 (by decide)

/-- Claim C2: once-only memoization.  For any two call sites A and B of
`staticize_once!` (each with its own fresh cell, as the macro mints a
distinct symbol per syntactic occurrence), any wrapped computations with
side effects on caller states (`exprA`, `exprB` — possibly producing the
same content), and any invocation counts `N, M ≥ 1`: after invoking site
A `N` times, the side effect of its computation has been applied exactly
once, and all `N` calls returned the identical cached reference (the one
interned on the first call); invoking site B `M` times on the resulting
pool then applies the side effect of its own computation exactly once,
independently, and all `M` of its calls return its identical cached
reference. -/
theorem staticize_once_memoizes {α β : Type} (exprA : α → α × String)
    (exprB : β → β × String) (N M : Nat) (hN : 1 ≤ N) (hM : 1 ≤ M)
    (u : α) (v : β) (p : Pool) :
    (runOnceN exprA N none u p).2.2.1 = (exprA u).1 ∧
    (runOnceN exprA N none u p).1 =
      List.replicate N (staticize (exprA u).2 p).1 ∧
    (runOnceN exprB M none v (runOnceN exprA N none u p).2.2.2).2.2.1 =
      (exprB v).1 ∧
    (runOnceN exprB M none v (runOnceN exprA N none u p).2.2.2).1 =
      List.replicate M
        (staticize (exprB v).2 (runOnceN exprA N none u p).2.2.2).1 := by
  obtain ⟨n, rfl⟩ : ∃ n, N = n + 1 := ⟨N - 1, by omega⟩
  obtain ⟨m, rfl⟩ : ∃ m, M = m + 1 := ⟨M - 1, by omega⟩
  simp [runOnceN_fresh]

/-- Witness for C2: two call sites whose computations both increment a
counter and produce the same content `"hello"`, invoked 2 and 3 times on
the empty pool. -/
theorem staticize_once_memoizes_witness :
    (runOnceN (fun n : Nat => (n + 1, "hello")) 2 none 0 Pool.empty).2.2.1 =
      ((fun n : Nat => (n + 1, "hello")) 0).1 ∧
    (runOnceN (fun n : Nat => (n + 1, "hello")) 2 none 0 Pool.empty).1 =
      List.replicate 2
        (staticize ((fun n : Nat => (n + 1, "hello")) 0).2 Pool.empty).1 ∧
    (runOnceN (fun n : Nat => (n + 1, "hello")) 3 none 0
        (runOnceN (fun n : Nat => (n + 1, "hello")) 2 none 0 Pool.empty).2.2.2).2.2.1 =
      ((fun n : Nat => (n + 1, "hello")) 0).1 ∧
    (runOnceN (fun n : Nat => (n + 1, "hello")) 3 none 0
        (runOnceN (fun n : Nat => (n + 1, "hello")) 2 none 0 Pool.empty).2.2.2).1 =
      List.replicate 3
        (staticize ((fun n : Nat => (n + 1, "hello")) 0).2
          (runOnceN (fun n : Nat => (n + 1, "hello")) 2 none 0 Pool.empty).2.2.2).1 :=
  staticize_once_memoizes (fun n : Nat => (n + 1, "hello"))
    (fun n : Nat => (n + 1, "hello")) 2 3 (by decide) (by decide) 0 0 Pool.empty

/-- Claim C8: the concatenation helper applied to the literal fragments
`"hello"`, `", "`, `"world"`, `"!"` yields `"hello, world!"`, and that
result is interned in the pool afterwards. -/
theorem static_concat_hello_world (p : Pool) :
    (static_concat ["hello", ", ", "world", "!"] p).1 = "hello, world!" ∧
    is_staticized "hello, world!"
      (static_concat ["hello", ", ", "world", "!"] p).2 = true := by
  have hj : String.join ["hello", ", ", "world", "!"] = "hello, world!" := rfl
  rw [static_concat_cons, hj]
  exact ⟨staticize_content "hello, world!" p,
    is_staticized_staticize "hello, world!" p⟩

/-- Claim C9: the formatting helper applied to the template `"{} {}!"`
with arguments `"hello"` and `"world"` yields `"hello world!"`, and that
result is interned in the pool afterwards. -/
theorem static_format_hello_world (p : Pool) :
    (static_format ["{} {}!", "hello", "world"] p).1 = "hello world!" ∧
    is_staticized "hello world!"
      (static_format ["{} {}!", "hello", "world"] p).2 = true := by
  have hf : format_spec "{} {}!" ["hello", "world"] = "hello world!" := rfl
  rw [static_format_cons, hf]
  exact ⟨staticize_content "hello world!" p,
    is_staticized_staticize "hello world!" p⟩

/-- Claim C10: zero-argument edge case.  `static_concat!()` and
`static_format!()` with no arguments return the empty string directly,
never call `staticize`, and leave the pool (in particular the membership
status of `""`) unchanged. -/
theorem zero_arg_macros_frame (p : Pool) :
    static_concat [] p = ("", p) ∧ static_format [] p = ("", p) ∧
    is_staticized "" (static_concat [] p).2 = is_staticized "" p ∧
    is_staticized "" (static_format [] p).2 = is_staticized "" p :=
  ⟨rfl, rfl, rfl, rfl⟩
